import Mathlib

/-!
Shallow embedding of the go-pool concurrency library.

The embedding follows the repository sources:
* worker.go  — the Task type, NewTask, Task.WithRetry (field replacement) and
  Task.Execute, the retry loop with exponential backoff and random jitter
  (rand.Int63n on half the current delay, which panics on a non-positive bound).
* pool.go    — the Pool built on golang.org/x/sync/errgroup: Go wraps each
  Task (applying the pool-wide retry override when configured), collects
  terminal errors under a mutex in completion order, Wait returns the first
  error recorded by the errgroup (the first failing goroutine to finish),
  Errors returns the collected log and a non-emptiness flag, and
  NewPool / WithLimit consult the STAGE environment variable.
* drain.go   — the mutex-guarded Drain collector: Send appends, Drain returns
  the current value sequence, Count returns its length.

Machine integers: time.Duration is int64, so backoff arithmetic is carried
out with wraparound into the int64 range (wrap64).  uint loop counters are
modelled as Nat (the loop index never wraps in a terminating execution).

Concurrency: goroutine completion order is an explicit parameter, a
permutation of the submission indices.  A stateful operation is modelled as a
function from its invocation number to its outcome, and the per-attempt
random draw as an oracle from the attempt number to a raw natural number.
-/

namespace GoPool

/-- The int64 sign boundary, 2 to the 63rd power. -/
def i63 : Int := 2 ^ 63

/-- Go int64 arithmetic wraps; wrap64 maps an unbounded integer into the
int64 range, the interval from minus 2 to the 63 up to 2 to the 63 excluded. -/
def wrap64 (x : Int) : Int := (x + i63) % 2 ^ 64 - i63

/-- rand.Int63n from math/rand: on a non-positive bound it panics (none);
otherwise it returns a value uniformly distributed in the interval from 0 up
to bound excluded.  The draw is modelled by reducing a caller-supplied raw
natural number modulo the bound, so that every value of the interval is
realized by some raw value. -/
def randInt63n (raw : Nat) (bound : Int) : Option Int :=
  if bound ≤ 0 then none else some ((raw : Int) % bound)

/-- Outcome of one Task execution: success, a terminal error, or a runtime
panic (as raised by rand.Int63n on a non-positive bound). -/
inductive Outcome (E : Type) where
  | ok : Outcome E
  | failed : E → Outcome E
  | panicked : Outcome E
deriving DecidableEq

/-- Observable trace of one Task.Execute call: its outcome, how many times
the wrapped operation was invoked, and the list of slept durations in order. -/
structure Trace (E : Type) where
  outcome : Outcome E
  invocations : Nat
  sleeps : List Int
deriving DecidableEq

/-- A Task (worker.go): the wrapped operation, retry attempts and base delay.
The operation is a function of its invocation number, which represents the
side-effecting state a Go closure would carry across attempts; none is a nil
error (success), some e is the error e.  attempts is a Go uint, sleep a
time.Duration (int64 nanoseconds). -/
structure Task (E : Type) where
  fn : Nat → Option E
  attempts : Nat
  sleep : Int

/-- NewTask (worker.go line 31): attempts defaults to 1, sleep to the zero
value of time.Duration. -/
def newTask {E : Type} (fn : Nat → Option E) : Task E :=
  { fn := fn, attempts := 1, sleep := 0 }

/-- Task.WithRetry (worker.go lines 55-59): plain field replacement of the
retry policy, returning the same task. -/
def Task.withRetry {E : Type} (t : Task E) (attempts : Nat) (sleep : Int) : Task E :=
  { t with attempts := attempts, sleep := sleep }

/-- The retry loop of Task.Execute (worker.go lines 35-53), recursing on the
number of remaining loop iterations.  i is the Go loop index (equal to the
number of invocations made so far), cur the currentSleep variable.  On an
error with attempts remaining, jitter is drawn by rand.Int63n on the integer
half of cur (panicking when that bound is non-positive), the task sleeps
cur plus jitter, and cur doubles with int64 wraparound. -/
def execLoop {E : Type} (fn : Nat → Option E) (rnd : Nat → Nat) :
    Nat → Nat → Int → Trace E
  | 0, _, _ => { outcome := .ok, invocations := 0, sleeps := [] }
  | remaining + 1, i, cur =>
    match fn i with
    | none => { outcome := .ok, invocations := 1, sleeps := [] }
    | some e =>
      if remaining = 0 then
        { outcome := .failed e, invocations := 1, sleeps := [] }
      else
        match randInt63n (rnd i) (Int.tdiv cur 2) with
        | none => { outcome := .panicked, invocations := 1, sleeps := [] }
        | some jit =>
          let rest := execLoop fn rnd remaining (i + 1) (wrap64 (cur * 2))
          { outcome := rest.outcome
            invocations := rest.invocations + 1
            sleeps := wrap64 (cur + jit) :: rest.sleeps }

/-- Task.Execute (worker.go lines 35-53): run the retry loop from loop index
0 with currentSleep initialized to the task's base delay. -/
def Task.execute {E : Type} (t : Task E) (rnd : Nat → Nat) : Trace E :=
  execLoop t.fn rnd t.attempts 0 t.sleep

/-- Pool-wide retry configuration (pool.go lines 23-26). -/
structure RetryConfig where
  attempts : Nat
  sleep : Int

/-- The per-task wrapping done by Pool.Go (pool.go lines 34-36): when the
pool has a retry configuration, the task is replaced by itself with the pool
policy installed via Task.WithRetry; otherwise it runs as is. -/
def applyPoolRetry {E : Type} (retry : Option RetryConfig) (t : Task E) : Task E :=
  match retry with
  | some r => t.withRetry r.attempts r.sleep
  | none => t

/-- The list of execution traces of a submitted batch, one per task in
submission order; task i draws randomness from its own oracle rnds i. -/
def poolTraces {E : Type} (retry : Option RetryConfig) (tasks : List (Task E))
    (rnds : Nat → Nat → Nat) : List (Trace E) :=
  (List.range tasks.length).map fun i =>
    match tasks.get? i with
    | some t => (applyPoolRetry retry t).execute (rnds i)
    | none => { outcome := .ok, invocations := 0, sleeps := [] }

/-- The terminal error a trace contributes to the pool error log, if any. -/
def failOf {E : Type} (tr : Trace E) : Option E :=
  match tr.outcome with
  | .failed e => some e
  | _ => none

/-- Result of Pool.Go followed by Pool.Wait and Pool.Errors (pool.go lines
29-67): the error Wait returns, the collected error log, the Errors flag,
the total number of operation invocations, and whether any goroutine
panicked.  order is the goroutine completion order: errors are appended to
the log as the failing goroutines finish (pool.go lines 39-44), and the
errgroup records the error of the first failing goroutine to finish as the
value Wait returns. -/
structure PoolResult (E : Type) where
  waitErr : Option E
  errors : List E
  hasErrors : Bool
  invocations : Nat
  panicked : Bool
deriving DecidableEq

/-- Run a batch: compute every trace, then read the error log off in
completion order. -/
def poolRun {E : Type} (retry : Option RetryConfig) (tasks : List (Task E))
    (rnds : Nat → Nat → Nat) (order : List Nat) : PoolResult E :=
  let traces := poolTraces retry tasks rnds
  let errs := order.filterMap fun i => (traces.get? i).bind failOf
  { waitErr := errs.head?
    errors := errs
    hasErrors := decide (0 < errs.length)
    invocations := (traces.map Trace.invocations).sum
    panicked := traces.any fun tr =>
      match tr.outcome with
      | .panicked => true
      | _ => false }

/-- The error log as it would read under completion order equal to
submission order: the terminal errors of the traces in submission order. -/
def submissionErrors {E : Type} (retry : Option RetryConfig) (tasks : List (Task E))
    (rnds : Nat → Nat → Nat) : List E :=
  (poolTraces retry tasks rnds).filterMap failOf

/-- The Drain collector (drain.go lines 8-12): its value sequence.  The
mutex and condition variable serialize access and drop out of the
sequential model. -/
structure Drain (T : Type) where
  values : List T
deriving DecidableEq

/-- NewDrainer (drain.go lines 15-19): empty value sequence. -/
def newDrainer {T : Type} : Drain T := { values := [] }

/-- Drain.Send (drain.go lines 22-27): append one value. -/
def Drain.send {T : Type} (d : Drain T) (v : T) : Drain T :=
  { values := d.values ++ [v] }

/-- Drain.Count (drain.go lines 30-34): number of values pushed so far. -/
def Drain.count {T : Type} (d : Drain T) : Nat := d.values.length

/-- Drain.Drain (drain.go lines 38-42): returns the current value sequence
and leaves the state unchanged; modelled as the pair of the post-state and
the returned sequence. -/
def Drain.drain {T : Type} (d : Drain T) : Drain T × List T := (d, d.values)

/-- Send a sequence of values from a single producer, in order. -/
def Drain.sendAll {T : Type} (d : Drain T) (vs : List T) : Drain T :=
  vs.foldl Drain.send d

/-- strings.EqualFold of the STAGE environment value with the word test, as
in pool.go lines 73, 95 and 116; the fold is character-wise lower-casing,
which agrees with Unicode simple folding on this comparand. -/
def stageIsTest (stage : String) : Bool :=
  stage.toList.map Char.toLower == ['t', 'e', 's', 't']

/-- Pool.WithLimit (pool.go lines 115-124): the limit actually installed on
the errgroup as a function of the STAGE environment value and the
caller-supplied limit; under a test stage the limit is forced to 1. -/
def withLimit (stage : String) (limit : Int) : Int :=
  if stageIsTest stage then 1 else limit

/-- NewPool (pool.go lines 70-87): the limit installed at construction, as a
function of the STAGE environment value; none means no limit is set
(unbounded concurrency). -/
def newPoolLimit (stage : String) : Option Int :=
  if stageIsTest stage then some 1 else none

/-- The backoff sleep durations of a run that retried n times starting from
base delay cur at loop index i: the k-th slept duration is the doubled delay
cur times 2 to the k, plus the jitter drawn for that attempt. -/
def backoffSleeps (cur : Int) (rnd : Nat → Nat) (i n : Nat) : List Int :=
  (List.range n).map fun k =>
    cur * 2 ^ k + ((rnd (i + k) : Int) % Int.tdiv (cur * 2 ^ k) 2)

/-! ### Arithmetic facts about the int64 model -/

lemma i63_val : i63 = (9223372036854775808 : Int) := by norm_num [i63]

lemma wrap64_eq_self {x : Int} (h1 : -i63 ≤ x) (h2 : x < i63) : wrap64 x = x := by
  have hv : i63 = (9223372036854775808 : Int) := i63_val
  have hp : (2 : Int) ^ 64 = 18446744073709551616 := by norm_num
  have h0 : 0 ≤ x + i63 := by omega
  have hlt : x + i63 < 2 ^ 64 := by rw [hp]; omega
  unfold wrap64
  rw [Int.emod_eq_of_lt h0 hlt]
  omega

lemma tdiv2_pos {cur : Int} (h : 2 ≤ cur) : 1 ≤ Int.tdiv cur 2 := by
  rw [Int.tdiv_eq_ediv (by omega) (by norm_num)]
  exact (Int.le_ediv_iff_mul_le (by norm_num)).mpr (by omega)

lemma tdiv2_nonpos {cur : Int} (h : cur ≤ 1) : Int.tdiv cur 2 ≤ 0 := by
  rcases le_or_lt 0 cur with h0 | h0
  · rw [Int.tdiv_eq_zero_of_lt h0 (by omega)]
  · have hneg : cur = -(-cur) := by ring
    rw [hneg, Int.neg_tdiv]
    have : 0 ≤ Int.tdiv (-cur) 2 := Int.tdiv_nonneg (by omega) (by norm_num)
    omega

lemma two_mul_tdiv2_le {cur : Int} (h : 0 ≤ cur) : 2 * Int.tdiv cur 2 ≤ cur := by
  rw [Int.tdiv_eq_ediv h (by norm_num)]
  have hdm := Int.ediv_add_emod cur 2
  have hm := Int.emod_nonneg cur (b := 2) (by norm_num)
  omega

lemma backoffSleeps_succ (cur : Int) (rnd : Nat → Nat) (i n : Nat) :
    backoffSleeps cur rnd i (n + 1) =
      (cur + ((rnd i : Int) % Int.tdiv cur 2)) ::
        backoffSleeps (cur * 2) rnd (i + 1) n := by
  unfold backoffSleeps
  rw [List.range_succ_eq_map, List.map_cons, List.map_map]
  congr 1
  · simp
  · congr 1
    funext k
    have h1 : cur * 2 ^ (k + 1) = cur * 2 * 2 ^ k := by ring
    have h2 : i + (k + 1) = i + 1 + k := by omega
    simp only [Function.comp_apply, Nat.succ_eq_add_one, h1, h2]

/-! ### Behavior of the retry loop -/

lemma execLoop_firstSuccess {E : Type} (fn : Nat → Option E) (rnd : Nat → Nat)
    {r : Nat} (i : Nat) (cur : Int) (hr : 1 ≤ r) (h : fn i = none) :
    execLoop fn rnd r i cur = { outcome := .ok, invocations := 1, sleeps := [] } := by
  obtain ⟨s, rfl⟩ : ∃ s, r = s + 1 := ⟨r - 1, by omega⟩
  simp [execLoop, h]

lemma execLoop_step {E : Type} (fn : Nat → Option E) (rnd : Nat → Nat)
    {remaining i : Nat} {cur : Int} {e : E}
    (hfi : fn i = some e) (hrem : remaining ≠ 0) (hb : ¬ Int.tdiv cur 2 ≤ 0) :
    execLoop fn rnd (remaining + 1) i cur =
      { outcome := (execLoop fn rnd remaining (i + 1) (wrap64 (cur * 2))).outcome,
        invocations := (execLoop fn rnd remaining (i + 1) (wrap64 (cur * 2))).invocations + 1,
        sleeps := wrap64 (cur + (rnd i : Int) % Int.tdiv cur 2) ::
          (execLoop fn rnd remaining (i + 1) (wrap64 (cur * 2))).sleeps } := by
  simp only [execLoop, hfi, randInt63n, if_neg hb, if_neg hrem]

lemma execLoop_lastFail {E : Type} (fn : Nat → Option E) (rnd : Nat → Nat)
    {i : Nat} {cur : Int} {e : E} (hfi : fn i = some e) :
    execLoop fn rnd 1 i cur =
      { outcome := .failed e, invocations := 1, sleeps := [] } := by
  simp [execLoop, hfi]

lemma execLoop_allFail {E : Type} (fn : Nat → Option E) (e : Nat → E) (rnd : Nat → Nat) :
    ∀ (r i : Nat) (cur : Int), 1 ≤ r →
      (∀ k, k < r → fn (i + k) = some (e (i + k))) →
      2 ≤ cur → cur * 2 ^ (r - 1) < i63 →
      execLoop fn rnd r i cur =
        { outcome := .failed (e (i + (r - 1))), invocations := r,
          sleeps := backoffSleeps cur rnd i (r - 1) } := by
  intro r
  induction r with
  | zero => intro i cur hr; omega
  | succ s ih =>
    intro i cur hr hfail hcur hov
    have hfi : fn i = some (e i) := by simpa using hfail 0 (by omega)
    cases s with
    | zero => simp [execLoop, hfi, backoffSleeps]
    | succ m =>
      have hbound : 1 ≤ Int.tdiv cur 2 := tdiv2_pos hcur
      have hb : ¬ Int.tdiv cur 2 ≤ 0 := by omega
      have hcur0 : (0 : Int) ≤ cur := by omega
      have hpow : (2 : Int) ≤ 2 ^ (m + 1) := by
        calc (2 : Int) = 2 ^ 1 := (pow_one 2).symm
        _ ≤ 2 ^ (m + 1) := pow_le_pow_right₀ (by norm_num) (by omega)
      have h2le : cur * 2 ≤ cur * 2 ^ (m + 1) := mul_le_mul_of_nonneg_left hpow hcur0
      have hov1 : cur * 2 ^ (m + 1) < i63 := by simpa using hov
      have hi63 : (0 : Int) < i63 := by rw [i63_val]; norm_num
      have hwrap2 : wrap64 (cur * 2) = cur * 2 :=
        wrap64_eq_self (by omega) (by omega)
      have hjtle := two_mul_tdiv2_le hcur0
      have hj0 : 0 ≤ (rnd i : Int) % Int.tdiv cur 2 := Int.emod_nonneg _ (by omega)
      have hjlt : (rnd i : Int) % Int.tdiv cur 2 < Int.tdiv cur 2 :=
        Int.emod_lt_of_pos _ (by omega)
      have hwrapj : wrap64 (cur + (rnd i : Int) % Int.tdiv cur 2)
          = cur + (rnd i : Int) % Int.tdiv cur 2 :=
        wrap64_eq_self (by omega) (by omega)
      have hfail1 : ∀ k, k < m + 1 → fn (i + 1 + k) = some (e (i + 1 + k)) := by
        intro k hk
        have hidx : i + (k + 1) = i + 1 + k := by omega
        have := hfail (k + 1) (by omega)
        rwa [hidx] at this
      have hov2 : cur * 2 * 2 ^ (m + 1 - 1) < i63 := by
        have : cur * 2 * 2 ^ (m + 1 - 1) = cur * 2 ^ (m + 1) := by
          rw [Nat.add_sub_cancel]; ring
        omega
      have hrec := ih (i + 1) (cur * 2) (by omega) hfail1 (by omega) hov2
      rw [execLoop_step fn rnd hfi (Nat.succ_ne_zero m) hb, hwrap2, hrec, hwrapj]
      have hidx2 : i + 1 + (m + 1 - 1) = i + (m + 1 + 1 - 1) := by omega
      have hsl : backoffSleeps cur rnd i (m + 1 + 1 - 1)
          = (cur + (rnd i : Int) % Int.tdiv cur 2) ::
              backoffSleeps (cur * 2) rnd (i + 1) (m + 1 - 1) := by
        have hn : m + 1 + 1 - 1 = (m + 1 - 1) + 1 := by omega
        rw [hn, backoffSleeps_succ]
      rw [hsl, hidx2]

lemma execLoop_succAt {E : Type} (fn : Nat → Option E) (e : Nat → E) (rnd : Nat → Nat) :
    ∀ (k r i : Nat) (cur : Int), k + 1 ≤ r →
      (∀ m, m < k → fn (i + m) = some (e (i + m))) →
      fn (i + k) = none → 2 ≤ cur → cur * 2 ^ k < i63 →
      execLoop fn rnd r i cur =
        { outcome := .ok, invocations := k + 1, sleeps := backoffSleeps cur rnd i k } := by
  intro k
  induction k with
  | zero =>
    intro r i cur hr _ hsucc _ _
    have : fn i = none := by simpa using hsucc
    rw [execLoop_firstSuccess fn rnd i cur (by omega) this]
    simp [backoffSleeps]
  | succ m ih =>
    intro r i cur hr hfail hsucc hcur hov
    obtain ⟨s, rfl⟩ : ∃ s, r = s + 1 := ⟨r - 1, by omega⟩
    have hfi : fn i = some (e i) := by simpa using hfail 0 (by omega)
    have hbound : 1 ≤ Int.tdiv cur 2 := tdiv2_pos hcur
    have hb : ¬ Int.tdiv cur 2 ≤ 0 := by omega
    have hcur0 : (0 : Int) ≤ cur := by omega
    have hpow : (2 : Int) ≤ 2 ^ (m + 1) := by
      calc (2 : Int) = 2 ^ 1 := (pow_one 2).symm
      _ ≤ 2 ^ (m + 1) := pow_le_pow_right₀ (by norm_num) (by omega)
    have h2le : cur * 2 ≤ cur * 2 ^ (m + 1) := mul_le_mul_of_nonneg_left hpow hcur0
    have hi63 : (0 : Int) < i63 := by rw [i63_val]; norm_num
    have hwrap2 : wrap64 (cur * 2) = cur * 2 := wrap64_eq_self (by omega) (by omega)
    have hjtle := two_mul_tdiv2_le hcur0
    have hj0 : 0 ≤ (rnd i : Int) % Int.tdiv cur 2 := Int.emod_nonneg _ (by omega)
    have hjlt : (rnd i : Int) % Int.tdiv cur 2 < Int.tdiv cur 2 :=
      Int.emod_lt_of_pos _ (by omega)
    have hwrapj : wrap64 (cur + (rnd i : Int) % Int.tdiv cur 2)
        = cur + (rnd i : Int) % Int.tdiv cur 2 :=
      wrap64_eq_self (by omega) (by omega)
    have hfail1 : ∀ n, n < m → fn (i + 1 + n) = some (e (i + 1 + n)) := by
      intro n hn
      have hidx : i + (n + 1) = i + 1 + n := by omega
      have := hfail (n + 1) (by omega)
      rwa [hidx] at this
    have hsucc1 : fn (i + 1 + m) = none := by
      have hidx : i + (m + 1) = i + 1 + m := by omega
      rwa [hidx] at hsucc
    have hov1 : cur * 2 * 2 ^ m < i63 := by
      have : cur * 2 * 2 ^ m = cur * 2 ^ (m + 1) := by ring
      omega
    have hrec := ih s (i + 1) (cur * 2) (by omega) hfail1 hsucc1 (by omega) hov1
    have hs0 : s ≠ 0 := by omega
    rw [execLoop_step fn rnd hfi hs0 hb, hwrap2, hrec, hwrapj, ← backoffSleeps_succ]

/-! ### Behavior of the pool -/

lemma filterMap_range_get {α β : Type} (l : List α) (f : α → Option β) :
    (List.range l.length).filterMap (fun i => (l.get? i).bind f) = l.filterMap f := by
  induction l with
  | nil => simp
  | cons a tl ih =>
    rw [List.length_cons, List.range_succ_eq_map, List.filterMap_cons, List.filterMap_map]
    have hg : ((fun i => ((a :: tl).get? i).bind f) ∘ Nat.succ)
        = fun i => (tl.get? i).bind f := by
      funext i
      simp
    rw [hg, ih]
    cases hfa : f a <;> simp [hfa, List.filterMap_cons]

lemma poolTraces_length {E : Type} (retry : Option RetryConfig) (tasks : List (Task E))
    (rnds : Nat → Nat → Nat) : (poolTraces retry tasks rnds).length = tasks.length := by
  simp [poolTraces]

lemma poolRun_errors_eq {E : Type} (retry : Option RetryConfig) (tasks : List (Task E))
    (rnds : Nat → Nat → Nat) (order : List Nat) :
    (poolRun retry tasks rnds order).errors
      = order.filterMap fun i => ((poolTraces retry tasks rnds).get? i).bind failOf := rfl

lemma poolRun_errors_range {E : Type} (retry : Option RetryConfig) (tasks : List (Task E))
    (rnds : Nat → Nat → Nat) :
    (poolRun retry tasks rnds (List.range tasks.length)).errors
      = submissionErrors retry tasks rnds := by
  rw [poolRun_errors_eq, ← poolTraces_length retry tasks rnds,
    filterMap_range_get (poolTraces retry tasks rnds) failOf]
  rfl

lemma poolRun_errors_perm {E : Type} (retry : Option RetryConfig) (tasks : List (Task E))
    (rnds : Nat → Nat → Nat) {order : List Nat}
    (h : order.Perm (List.range tasks.length)) :
    (poolRun retry tasks rnds order).errors.Perm (submissionErrors retry tasks rnds) := by
  rw [poolRun_errors_eq, ← poolRun_errors_range retry tasks rnds, poolRun_errors_eq]
  exact h.filterMap _

lemma applyPoolRetry_fn {E : Type} (retry : Option RetryConfig) (t : Task E) :
    (applyPoolRetry retry t).fn = t.fn := by
  cases retry <;> rfl

/-! ### Behavior of the drainer -/

lemma sendAll_values {T : Type} (vs : List T) :
    ∀ d : Drain T, (d.sendAll vs).values = d.values ++ vs := by
  induction vs with
  | nil => intro d; simp [Drain.sendAll]
  | cons v tl ih =>
    intro d
    show ((d.send v).sendAll tl).values = d.values ++ (v :: tl)
    rw [ih (d.send v)]
    simp [Drain.send]

/-! ### Claim theorems -/

/-- Claim C3 (amended): provided the base delay is at least 2 nanoseconds and
the doubled backoff stays inside int64, Execute invokes an always-failing
operation exactly R times and returns the error of the R-th invocation, and
invokes an operation that first succeeds at its (k+1)-th invocation exactly
k+1 times, returning no error.  With a smaller base delay a retried failure
panics instead (see the counterexample and claim C10). -/
theorem execute_retry_invocation_counts {E : Type} (t : Task E) (e : Nat → E)
    (rnd : Nat → Nat) (R : Nat) (hA : t.attempts = R) (hR : 1 ≤ R) (hs : 2 ≤ t.sleep) :
    ((∀ k, k < R → t.fn k = some (e k)) → t.sleep * 2 ^ (R - 1) < i63 →
      (t.execute rnd).outcome = .failed (e (R - 1)) ∧ (t.execute rnd).invocations = R)
    ∧ (∀ k, k + 1 ≤ R → (∀ m, m < k → t.fn m = some (e m)) → t.fn k = none →
        t.sleep * 2 ^ k < i63 →
        (t.execute rnd).outcome = .ok ∧ (t.execute rnd).invocations = k + 1) := by
  constructor
  · intro hfail hov
    have h := execLoop_allFail t.fn e rnd R 0 t.sleep hR
      (fun k hk => by simpa using hfail k hk) hs hov
    unfold Task.execute
    rw [hA, h]
    simp
  · intro k hk hfail hsucc hov
    have h := execLoop_succAt t.fn e rnd k R 0 t.sleep hk
      (fun m hm => by simpa using hfail m hm) (by simpa using hsucc) hs hov
    unfold Task.execute
    rw [hA, h]
    simp

/-- Claim C3 counterexample: a Task with attempts 2 and base delay 0 whose
operation always fails makes a single invocation and panics in the jitter
computation; it does not make 2 invocations and does not return the last
error, contradicting the claim as stated for every attempts value R. -/
theorem execute_zero_delay_retry_counterexample :
    ((Task.mk (fun _ => some 7) 2 0 : Task Nat).execute (fun _ => 0)).outcome = .panicked
    ∧ ((Task.mk (fun _ => some 7) 2 0 : Task Nat).execute (fun _ => 0)).invocations = 1
    ∧ ¬ (((Task.mk (fun _ => some 7) 2 0 : Task Nat).execute (fun _ => 0)).invocations = 2
        ∧ ((Task.mk (fun _ => some 7) 2 0 : Task Nat).execute (fun _ => 0)).outcome
            = .failed 7) := by
  refine ⟨by decide, by decide, by decide⟩

/-- Witness for the C3 theorem: with attempts 3 and base delay 2, an
always-failing operation runs 3 times and surfaces its third error, and an
operation that succeeds at its second invocation runs exactly twice. -/
theorem execute_retry_invocation_counts_witness :
    ((Task.mk (fun i => some (i + 1)) 3 2 : Task Nat).execute (fun _ => 0)).outcome
        = .failed 3
    ∧ ((Task.mk (fun i => some (i + 1)) 3 2 : Task Nat).execute (fun _ => 0)).invocations = 3
    ∧ ((Task.mk (fun i => if i = 1 then none else some 9) 3 2 : Task Nat).execute
        (fun _ => 0)).outcome = .ok
    ∧ ((Task.mk (fun i => if i = 1 then none else some 9) 3 2 : Task Nat).execute
        (fun _ => 0)).invocations = 2 := by
  have h1 := (execute_retry_invocation_counts (Task.mk (fun i => some (i + 1)) 3 2)
    (fun i => i + 1) (fun _ => 0) 3 rfl (by norm_num) (by norm_num)).1
    (fun k hk => rfl) (by rw [i63_val]; norm_num)
  have h2 := (execute_retry_invocation_counts
    (Task.mk (fun i => if i = 1 then none else some 9) 3 2)
    (fun _ => 9) (fun _ => 0) 3 rfl (by norm_num) (by norm_num)).2 1
    (by norm_num)
    (fun m hm => by
      have hm0 : m = 0 := by omega
      subst hm0
      rfl)
    rfl (by rw [i63_val]; norm_num)
  exact ⟨h1.1, h1.2, h2.1, h2.2⟩

/-- Claim C10: with attempts at least 2, a first-attempt failure and a base
delay of at most 1 nanosecond (in particular the zero default), Execute
panics computing the jitter — rand.Int63n receives a non-positive bound —
after a single invocation and without sleeping, instead of returning an
error. -/
theorem retry_zero_delay_panics {E : Type} (t : Task E) (e : E) (rnd : Nat → Nat)
    (hA : 2 ≤ t.attempts) (hf : t.fn 0 = some e) (hs : t.sleep ≤ 1) :
    (t.execute rnd).outcome = .panicked ∧ (t.execute rnd).invocations = 1
    ∧ (t.execute rnd).sleeps = [] := by
  obtain ⟨s, hs2⟩ : ∃ s, t.attempts = s + 2 := ⟨t.attempts - 2, by omega⟩
  have hb : Int.tdiv t.sleep 2 ≤ 0 := tdiv2_nonpos hs
  unfold Task.execute
  rw [hs2]
  simp [execLoop, hf, randInt63n, if_pos hb, if_neg (Nat.succ_ne_zero s)]

/-- Witness for the C10 theorem: a task with attempts 2, base delay 0 and an
always-failing operation panics. -/
theorem retry_zero_delay_panics_witness :
    2 ≤ (Task.mk (fun _ => some 3) 2 0 : Task Nat).attempts
    ∧ ((Task.mk (fun _ => some 3) 2 0 : Task Nat).execute (fun _ => 0)).outcome
        = .panicked := by
  exact ⟨by decide, (retry_zero_delay_panics _ 3 (fun _ => 0) (by decide) rfl (by decide)).1⟩

/-- Claim C4: for a retried (always-failing) Task with base delay at least 2
nanoseconds and in-range backoff, the k-th slept delay is the doubled delay
d k equal to sleep times 2 to the k, plus a per-attempt jitter j with
0 ≤ j < d k / 2; no sleep follows the final failing attempt (R minus 1
sleeps for R invocations); and every jitter sequence inside those bounds is
realized by some sequence of random draws, one independent draw per attempt. -/
theorem execute_backoff_delays {E : Type} (t : Task E) (e : Nat → E) (R : Nat)
    (hA : t.attempts = R) (hR : 1 ≤ R) (hs : 2 ≤ t.sleep)
    (hfail : ∀ k, k < R → t.fn k = some (e k))
    (hov : t.sleep * 2 ^ (R - 1) < i63) :
    (∀ rnd : Nat → Nat,
      ((t.execute rnd).sleeps).length = R - 1
      ∧ ∀ k, k < R - 1 →
          ∃ j : Int, 0 ≤ j ∧ 2 * j < t.sleep * 2 ^ k
            ∧ ((t.execute rnd).sleeps).get? k = some (t.sleep * 2 ^ k + j))
    ∧ ∀ j : Nat → Int,
        (∀ k, k < R - 1 → 0 ≤ j k ∧ j k < Int.tdiv (t.sleep * 2 ^ k) 2) →
        ∃ rnd : Nat → Nat,
          (t.execute rnd).sleeps =
            (List.range (R - 1)).map fun k => t.sleep * 2 ^ k + j k := by
  have hexec : ∀ rnd : Nat → Nat,
      (t.execute rnd).sleeps = backoffSleeps t.sleep rnd 0 (R - 1) := by
    intro rnd
    have h := execLoop_allFail t.fn e rnd R 0 t.sleep hR
      (fun k hk => by simpa using hfail k hk) hs hov
    unfold Task.execute
    rw [hA, h]
  have h2k : ∀ k : Nat, (2 : Int) ≤ t.sleep * 2 ^ k := by
    intro k
    nlinarith [pow_pos (show (0 : Int) < 2 by norm_num) k]
  constructor
  · intro rnd
    rw [hexec rnd]
    constructor
    · simp [backoffSleeps]
    · intro k hk
      have hb1 : 1 ≤ Int.tdiv (t.sleep * 2 ^ k) 2 := tdiv2_pos (h2k k)
      have hj0 : 0 ≤ (rnd (0 + k) : Int) % Int.tdiv (t.sleep * 2 ^ k) 2 :=
        Int.emod_nonneg _ (by omega)
      have hjlt : (rnd (0 + k) : Int) % Int.tdiv (t.sleep * 2 ^ k) 2
          < Int.tdiv (t.sleep * 2 ^ k) 2 := Int.emod_lt_of_pos _ (by omega)
      have htle := two_mul_tdiv2_le (show (0 : Int) ≤ t.sleep * 2 ^ k by
        have := h2k k
        omega)
      refine ⟨(rnd (0 + k) : Int) % Int.tdiv (t.sleep * 2 ^ k) 2, hj0, by omega, ?_⟩
      simp only [backoffSleeps, Nat.zero_add]
      rw [List.get?_eq_getElem?, List.getElem?_map, List.getElem?_range hk]
      rfl
  · intro j hj
    refine ⟨fun k => (j k).toNat, ?_⟩
    rw [hexec]
    unfold backoffSleeps
    apply List.map_congr_left
    intro k hk
    have hk2 : k < R - 1 := List.mem_range.mp hk
    have hjk := hj k hk2
    simp only [Nat.zero_add]
    rw [Int.toNat_of_nonneg hjk.1, Int.emod_eq_of_lt hjk.1 hjk.2]

/-- Witness for the C4 theorem: a task with attempts 3 and base delay 4
sleeps exactly twice, and the jitter-free random draws realize the delay
sequence 4 then 8. -/
theorem execute_backoff_delays_witness :
    (((Task.mk (fun i => some (i + 1)) 3 4 : Task Nat).execute (fun _ => 1)).sleeps).length = 2
    ∧ ∃ rnd : Nat → Nat,
        ((Task.mk (fun i => some (i + 1)) 3 4 : Task Nat).execute rnd).sleeps
          = (List.range 2).map fun k => 4 * 2 ^ k + (fun _ : Nat => (0 : Int)) k := by
  have h := execute_backoff_delays (Task.mk (fun i => some (i + 1)) 3 4)
    (fun i => i + 1) 3 rfl (by norm_num) (by norm_num)
    (fun k hk => rfl) (by rw [i63_val]; norm_num)
  exact ⟨(h.1 (fun _ => 1)).1, h.2 (fun _ => 0) (by decide)⟩

/-- Claim C5: a pool-level retry policy replaces — does not compose with —
any policy previously installed on a Task by its own WithRetry call: the
effective task is the task with exactly the pool policy installed, its
execution is that of the task operation under the pool policy, and a whole
batch runs identically whatever per-task policies were installed before
submission. -/
theorem pool_retry_overrides_task_policy {E : Type} (t : Task E) (tasks : List (Task E))
    (a0 pa : Nat) (s0 ps : Int) (rnd : Nat → Nat) (rnds : Nat → Nat → Nat)
    (order : List Nat) :
    applyPoolRetry (some ⟨pa, ps⟩) (t.withRetry a0 s0) = t.withRetry pa ps
    ∧ (applyPoolRetry (some ⟨pa, ps⟩) (t.withRetry a0 s0)).execute rnd
        = (Task.mk t.fn pa ps).execute rnd
    ∧ poolRun (some ⟨pa, ps⟩) (tasks.map fun u => u.withRetry a0 s0) rnds order
        = poolRun (some ⟨pa, ps⟩) tasks rnds order := by
  refine ⟨rfl, rfl, ?_⟩
  have key : poolTraces (some ⟨pa, ps⟩) (tasks.map fun u => u.withRetry a0 s0) rnds
      = poolTraces (some ⟨pa, ps⟩) tasks rnds := by
    unfold poolTraces
    rw [List.length_map]
    congr 1
    funext i
    rw [List.get?_map]
    cases tasks.get? i <;> rfl
  unfold poolRun
  rw [key]

/-- Claim C8: draining after a single producer sent the values v1 up to vm
yields exactly that sequence in send order; Drain does not mutate the
collector; and two consecutive drains with no intervening Send return the
same sequence. -/
theorem drainer_roundtrip {T : Type} (vs : List T) :
    ((newDrainer.sendAll vs).drain).2 = vs
    ∧ ((newDrainer.sendAll vs).drain).1 = newDrainer.sendAll vs
    ∧ ((((newDrainer.sendAll vs).drain).1).drain).2 = ((newDrainer.sendAll vs).drain).2 := by
  refine ⟨?_, rfl, rfl⟩
  show (newDrainer.sendAll vs).values = vs
  rw [sendAll_values vs newDrainer]
  simp [newDrainer]

/-- Claim C9 (amended): the concurrency configuration reads the STAGE
environment variable: when STAGE case-insensitively equals test, WithLimit
forces the errgroup limit to 1 and NewPool pre-sets a limit of 1, whatever
limit the caller supplied; on every other environment WithLimit installs
exactly the caller-supplied limit and NewPool sets no limit — so two runs
differing only in environment agree exactly when neither is test-staged. -/
theorem withLimit_env_dependence (stage1 stage2 : String) (limit : Int)
    (h1 : stageIsTest stage1 = false) (h2 : stageIsTest stage2 = false) :
    withLimit stage1 limit = limit
    ∧ withLimit stage1 limit = withLimit stage2 limit
    ∧ newPoolLimit stage1 = none
    ∧ newPoolLimit stage1 = newPoolLimit stage2
    ∧ (∀ stage : String, stageIsTest stage = true →
        withLimit stage limit = 1 ∧ newPoolLimit stage = some 1) := by
  refine ⟨?_, ?_, ?_, ?_, ?_⟩
  · simp [withLimit, h1]
  · simp [withLimit, h1, h2]
  · simp [newPoolLimit, h1]
  · simp [newPoolLimit, h1, h2]
  · intro stage hst
    exact ⟨by simp [withLimit, hst], by simp [newPoolLimit, hst]⟩

/-- Claim C9 counterexample: under a test STAGE the caller-supplied limit 5
is ignored and 1 is installed, while the empty environment installs 5, so
two runs differing only in the environment behave differently and WithLimit
does not always install the caller-supplied value. -/
theorem withLimit_reads_env_counterexample :
    withLimit "test" 5 = 1 ∧ withLimit "" 5 = 5
    ∧ withLimit "test" 5 ≠ withLimit "" 5
    ∧ newPoolLimit "TEST" = some 1 ∧ newPoolLimit "" = none := by
  refine ⟨by decide, by decide, by decide, by decide, by decide⟩

/-- Witness for the C9 theorem: on two non-test environments WithLimit
installs the caller-supplied limit 7 identically. -/
theorem withLimit_env_dependence_witness :
    stageIsTest "prod" = false ∧ stageIsTest "" = false
    ∧ withLimit "prod" 7 = 7 ∧ withLimit "prod" 7 = withLimit "" 7 := by
  have h := withLimit_env_dependence "prod" "" 7 (by decide) (by decide)
  exact ⟨by decide, by decide, h.1, h.2.1⟩

/-- Claim C1 (amended): Wait accounts for every submitted task — the error
log has one entry per terminally failing task — and returns the error of the
first task to finish with a terminal failure in goroutine completion order
(none when none fails), which is the head of the error log; only when
completion order coincides with submission order (as under a concurrency
limit of 1) is that the earliest-submitted failing task's error. -/
theorem wait_returns_first_completed_error {E : Type} (retry : Option RetryConfig)
    (tasks : List (Task E)) (rnds : Nat → Nat → Nat) (order : List Nat)
    (h : order.Perm (List.range tasks.length)) :
    (poolRun retry tasks rnds order).waitErr
        = ((poolRun retry tasks rnds order).errors).head?
    ∧ ((poolRun retry tasks rnds order).errors).length
        = (submissionErrors retry tasks rnds).length
    ∧ (order = List.range tasks.length →
        (poolRun retry tasks rnds order).waitErr
          = (submissionErrors retry tasks rnds).head?) := by
  refine ⟨rfl, (poolRun_errors_perm retry tasks rnds h).length_eq, ?_⟩
  intro horder
  subst horder
  calc (poolRun retry tasks rnds (List.range tasks.length)).waitErr
      = ((poolRun retry tasks rnds (List.range tasks.length)).errors).head? := rfl
  _ = (submissionErrors retry tasks rnds).head? := by
      rw [poolRun_errors_range]

/-- Claim C1 counterexample: two tasks failing with errors 1 and 2; under
the completion order second-then-first — a legitimate permutation of the
submission indices — Wait returns error 2, not the earliest-submitted
failing task's error 1. -/
theorem wait_not_submission_first_counterexample :
    ([1, 0] : List Nat).Perm (List.range 2)
    ∧ (poolRun none [Task.mk (fun _ => some 1) 1 0, Task.mk (fun _ => some 2) 1 0]
        (fun _ _ => 0) [1, 0]).waitErr = some 2
    ∧ (submissionErrors none
        [Task.mk (fun _ => some 1) 1 0, Task.mk (fun _ => some 2) 1 0]
        (fun _ _ => 0)).head? = some 1
    ∧ (poolRun none [Task.mk (fun _ => some 1) 1 0, Task.mk (fun _ => some 2) 1 0]
        (fun _ _ => 0) [1, 0]).waitErr
      ≠ (submissionErrors none
        [Task.mk (fun _ => some 1) 1 0, Task.mk (fun _ => some 2) 1 0]
        (fun _ _ => 0)).head? := by
  refine ⟨by decide, by decide, by decide, by decide⟩

/-- Witness for the C1 theorem at a concrete batch and completion order. -/
theorem wait_returns_first_completed_error_witness :
    ([1, 0] : List Nat).Perm (List.range 2)
    ∧ (poolRun none [Task.mk (fun _ => some 1) 1 0, Task.mk (fun _ => some 2) 1 0]
        (fun _ _ => 0) [1, 0]).waitErr
      = ((poolRun none [Task.mk (fun _ => some 1) 1 0, Task.mk (fun _ => some 2) 1 0]
        (fun _ _ => 0) [1, 0]).errors).head? := by
  exact ⟨by decide, (wait_returns_first_completed_error none
    [Task.mk (fun _ => some 1) 1 0, Task.mk (fun _ => some 2) 1 0]
    (fun _ _ => 0) [1, 0] (by decide)).1⟩

/-- Claim C2 (amended): the error log is appended in goroutine completion
order, not submission order: it is always a permutation of the
submission-ordered terminal errors, and equals the submission-indexed
sequence exactly when completion order is the submission order (as forced by
a concurrency limit of 1). -/
theorem error_log_completion_order {E : Type} (retry : Option RetryConfig)
    (tasks : List (Task E)) (rnds : Nat → Nat → Nat) (order : List Nat)
    (h : order.Perm (List.range tasks.length)) :
    ((poolRun retry tasks rnds order).errors).Perm (submissionErrors retry tasks rnds)
    ∧ (order = List.range tasks.length →
        (poolRun retry tasks rnds order).errors = submissionErrors retry tasks rnds) := by
  refine ⟨poolRun_errors_perm retry tasks rnds h, ?_⟩
  intro horder
  subst horder
  exact poolRun_errors_range retry tasks rnds

/-- Claim C2 counterexample: two tasks failing with errors 1 and 2 complete
in the order second-then-first; the error log reads 2 then 1, while
submission-index order would read 1 then 2. -/
theorem error_log_not_submission_indexed_counterexample :
    ([1, 0] : List Nat).Perm (List.range 2)
    ∧ (poolRun none [Task.mk (fun _ => some 1) 1 0, Task.mk (fun _ => some 2) 1 0]
        (fun _ _ => 0) [1, 0]).errors = [2, 1]
    ∧ submissionErrors none
        [Task.mk (fun _ => some 1) 1 0, Task.mk (fun _ => some 2) 1 0]
        (fun _ _ => 0) = [1, 2]
    ∧ (poolRun none [Task.mk (fun _ => some 1) 1 0, Task.mk (fun _ => some 2) 1 0]
        (fun _ _ => 0) [1, 0]).errors
      ≠ submissionErrors none
        [Task.mk (fun _ => some 1) 1 0, Task.mk (fun _ => some 2) 1 0]
        (fun _ _ => 0) := by
  refine ⟨by decide, by decide, by decide, by decide⟩

/-- Witness for the C2 theorem at a concrete batch and completion order. -/
theorem error_log_completion_order_witness :
    ([1, 0] : List Nat).Perm (List.range 2)
    ∧ ((poolRun none [Task.mk (fun _ => some 1) 1 0, Task.mk (fun _ => some 2) 1 0]
        (fun _ _ => 0) [1, 0]).errors).Perm (submissionErrors none
        [Task.mk (fun _ => some 1) 1 0, Task.mk (fun _ => some 2) 1 0]
        (fun _ _ => 0)) := by
  exact ⟨by decide, (error_log_completion_order none
    [Task.mk (fun _ => some 1) 1 0, Task.mk (fun _ => some 2) 1 0]
    (fun _ _ => 0) [1, 0] (by decide)).1⟩

/-- Claim C6: no Task is cancelled or skipped because a sibling Task
returned an error.  In every batch — failing siblings included — there is
exactly one execution trace per submitted Task, and the i-th Task's trace is
its own standalone Execute under its effective policy and its own randomness,
an expression in which no sibling occurs, so it is unchanged by any sibling's
failure; in particular a Task placed after and before arbitrary (for
instance, terminally failing) siblings still executes to completion exactly
as it would alone.  When additionally every operation always succeeds and
every effective policy grants at least one attempt, Wait returns no error,
the log is empty, nothing panics, and exactly N invocations occur for N
Tasks, under every completion order. -/
theorem all_tasks_run_no_cancellation {E : Type} (retry : Option RetryConfig)
    (tasks : List (Task E)) (rnds : Nat → Nat → Nat) (order : List Nat) :
    (poolTraces retry tasks rnds).length = tasks.length
    ∧ (∀ i, ∀ t : Task E, tasks.get? i = some t →
        (poolTraces retry tasks rnds).get? i
          = some ((applyPoolRetry retry t).execute (rnds i)))
    ∧ (∀ pre post : List (Task E), ∀ t : Task E, tasks = pre ++ t :: post →
        (poolTraces retry tasks rnds).get? pre.length
          = some ((applyPoolRetry retry t).execute (rnds pre.length)))
    ∧ ((∀ t ∈ tasks, 1 ≤ (applyPoolRetry retry t).attempts) →
        (∀ t ∈ tasks, ∀ i, t.fn i = none) →
        (poolRun retry tasks rnds order).waitErr = none
        ∧ (poolRun retry tasks rnds order).errors = []
        ∧ (poolRun retry tasks rnds order).invocations = tasks.length
        ∧ (poolRun retry tasks rnds order).panicked = false) := by
  have hA : ∀ i, ∀ t : Task E, tasks.get? i = some t →
      (poolTraces retry tasks rnds).get? i
        = some ((applyPoolRetry retry t).execute (rnds i)) := by
    intro i t ht
    have hi : i < tasks.length := by
      by_contra hc
      rw [List.get?_eq_none.mpr (by omega)] at ht
      exact Option.noConfusion ht
    unfold poolTraces
    rw [List.get?_eq_getElem?, List.getElem?_map, List.getElem?_range hi]
    rw [List.get?_eq_getElem?] at ht
    simp [ht]
  refine ⟨poolTraces_length retry tasks rnds, hA, ?_, ?_⟩
  · intro pre post t hsplit
    apply hA
    rw [hsplit, List.get?_append_right (Nat.le_refl pre.length)]
    simp
  intro heff hsucc
  have htr : poolTraces retry tasks rnds
      = List.replicate tasks.length { outcome := .ok, invocations := 1, sleeps := [] } := by
    rw [List.eq_replicate_iff]
    refine ⟨by simp [poolTraces], ?_⟩
    intro tr htrm
    simp only [poolTraces, List.mem_map, List.mem_range] at htrm
    obtain ⟨i, hi, rfl⟩ := htrm
    rw [List.get?_eq_get hi]
    show (applyPoolRetry retry (tasks.get ⟨i, hi⟩)).execute (rnds i) = _
    have hmem : tasks.get ⟨i, hi⟩ ∈ tasks := List.get_mem tasks i hi
    unfold Task.execute
    exact execLoop_firstSuccess _ _ 0 _ (heff _ hmem)
      (by rw [applyPoolRetry_fn]; exact hsucc _ hmem 0)
  have herr : (poolRun retry tasks rnds order).errors = [] := by
    rw [poolRun_errors_eq]
    rw [List.filterMap_eq_nil_iff]
    intro i _
    rw [htr, List.get?_eq_getElem?, List.getElem?_replicate]
    split <;> rfl
  refine ⟨?_, herr, ?_, ?_⟩
  · calc (poolRun retry tasks rnds order).waitErr
        = ((poolRun retry tasks rnds order).errors).head? := rfl
    _ = none := by rw [herr]; rfl
  · show ((poolTraces retry tasks rnds).map Trace.invocations).sum = tasks.length
    rw [htr]
    simp [List.sum_replicate]
  · show ((poolTraces retry tasks rnds).any _) = false
    rw [htr, List.any_eq_false]
    intro x hx
    rw [List.eq_of_mem_replicate hx]
    simp

/-- Witness for the C6 theorem: in a batch whose first task terminally
fails, the second (succeeding) task still executes exactly as it would
alone; and three always-succeeding tasks under the completion order 2, 0, 1
produce no error and three invocations. -/
theorem all_tasks_run_no_cancellation_witness :
    (poolTraces none [Task.mk (fun _ => some 9) 1 0, Task.mk (fun _ => none) 1 0]
        (fun _ _ => 0)).get? 1
      = some ((applyPoolRetry none (Task.mk (fun _ => none) 1 0 : Task Nat)).execute
          (fun _ => 0))
    ∧ (poolRun none (List.replicate 3 (Task.mk (fun _ => none) 1 0 : Task Nat))
        (fun _ _ => 0) [2, 0, 1]).waitErr = none
    ∧ (poolRun none (List.replicate 3 (Task.mk (fun _ => none) 1 0 : Task Nat))
        (fun _ _ => 0) [2, 0, 1]).invocations = 3 := by
  have hmixed := (all_tasks_run_no_cancellation none
    [Task.mk (fun _ => some 9) 1 0, Task.mk (fun _ => none) 1 0]
    (fun _ _ => 0) []).2.2.1
    [Task.mk (fun _ => some 9) 1 0] [] (Task.mk (fun _ => none) 1 0) rfl
  have hall := (all_tasks_run_no_cancellation none
    (List.replicate 3 (Task.mk (fun _ => none) 1 0 : Task Nat))
    (fun _ _ => 0) [2, 0, 1]).2.2.2
    (by
      intro t ht
      rw [List.eq_of_mem_replicate ht]
      decide)
    (by
      intro t ht i
      rw [List.eq_of_mem_replicate ht])
  exact ⟨hmixed, hall.1, hall.2.2.1⟩

/-- Claim C7: in a run where no goroutine panicked, the error log contains
exactly one entry per terminally failed task — its length is the number K of
traces ending in terminal failure — and is a permutation of those terminal
errors, so no intermediate retried failure ever appears; and the Errors flag
is set exactly when K is positive. -/
theorem error_log_terminal_failures {E : Type} (retry : Option RetryConfig)
    (tasks : List (Task E)) (rnds : Nat → Nat → Nat) (order : List Nat)
    (h : order.Perm (List.range tasks.length))
    (_hnp : (poolRun retry tasks rnds order).panicked = false) :
    ((poolRun retry tasks rnds order).errors).length
      = (poolTraces retry tasks rnds).countP (fun tr => (failOf tr).isSome)
    ∧ ((poolRun retry tasks rnds order).errors).Perm
        ((poolTraces retry tasks rnds).filterMap failOf)
    ∧ ((poolRun retry tasks rnds order).hasErrors = true
        ↔ 0 < (poolTraces retry tasks rnds).countP (fun tr => (failOf tr).isSome)) := by
  have hperm := poolRun_errors_perm retry tasks rnds h
  have hlen : ((poolRun retry tasks rnds order).errors).length
      = (poolTraces retry tasks rnds).countP (fun tr => (failOf tr).isSome) := by
    rw [hperm.length_eq]
    exact List.length_filterMap_eq_countP failOf _
  refine ⟨hlen, hperm, ?_⟩
  have hflag : (poolRun retry tasks rnds order).hasErrors
      = decide (0 < ((poolRun retry tasks rnds order).errors).length) := rfl
  rw [hflag]
  simp only [decide_eq_true_eq, hlen]

/-- Witness for the C7 theorem: a batch with two failing and one succeeding
task, completed in reverse order, has an error log of length equal to its
number of terminally failed tasks. -/
theorem error_log_terminal_failures_witness :
    ([2, 1, 0] : List Nat).Perm (List.range 3)
    ∧ (poolRun none [Task.mk (fun _ => some 5) 1 0, Task.mk (fun _ => none) 1 0,
        Task.mk (fun _ => some 6) 1 0] (fun _ _ => 0) [2, 1, 0]).panicked = false
    ∧ ((poolRun none [Task.mk (fun _ => some 5) 1 0, Task.mk (fun _ => none) 1 0,
        Task.mk (fun _ => some 6) 1 0] (fun _ _ => 0) [2, 1, 0]).errors).length
      = (poolTraces none [Task.mk (fun _ => some 5) 1 0, Task.mk (fun _ => none) 1 0,
        Task.mk (fun _ => some 6) 1 0] (fun _ _ => 0)).countP
          (fun tr => (failOf tr).isSome) := by
  have h := error_log_terminal_failures none
    [Task.mk (fun _ => some 5) 1 0, Task.mk (fun _ => none) 1 0,
      Task.mk (fun _ => some 6) 1 0] (fun _ _ => 0) [2, 1, 0] (by decide) (by decide)
  exact ⟨by decide, by decide, h.1⟩

end GoPool
